import Mathlib

/-!
Verification of the financial calculation engine of the home-budget
calculator (`src/static/js/app.js`), embedded shallowly over exact
rational arithmetic (`ℚ`).  Money values, rates and ratios are rationals;
month counts are naturals; JavaScript objects become structures; the
sparse financing-source array becomes a `List (Option FinancingSource)`.
-/

namespace HomeBudget

/-! ## Rate tables (`CMHC_RATES`, `QUEBEC_WELCOME_TAX_BRACKETS`, `FINANCING_TYPES`) -/

/-- CMHC premium-rate brackets: `(maxLtv, rate)` pairs, ascending. -/
def CMHC_RATES : List (ℚ × ℚ) :=
  [(65/100, 60/10000), (75/100, 170/10000), (80/100, 240/10000),
   (85/100, 280/10000), (90/100, 310/10000), (95/100, 400/10000)]

def CMHC_30_YEAR_SURCHARGE : ℚ := 20/10000

def QUEBEC_TVQ_RATE : ℚ := 9975/100000

/-- Variant tag of a financing source. -/
inductive SourceType
  | mortgage
  | celiapp
  | rrsp
  | tfsa
  | joint_account
  | parents_loan
  | other_loan
  | other_savings
deriving DecidableEq, Repr

/-- Capability record of a source type (`FINANCING_TYPES[...]` in the source). -/
structure TypeConfig where
  requiresRepayment : Bool
  isLoan : Bool
  countsTowardDownPayment : Bool
  isAutoCalculated : Bool
  maxContribution : Option ℚ
  maxWithdrawal : Option ℚ
  repaymentYears : Option ℚ
deriving Repr

/-- The `FINANCING_TYPES` table. -/
def FINANCING_TYPES : SourceType → TypeConfig
  | .mortgage => ⟨true, true, false, false, none, none, none⟩
  | .celiapp => ⟨false, false, true, false, some 40000, none, none⟩
  | .rrsp => ⟨true, false, true, false, none, some 60000, some 15⟩
  | .tfsa => ⟨false, false, true, false, none, none, none⟩
  | .joint_account => ⟨false, false, false, false, none, none, none⟩
  | .parents_loan => ⟨true, true, true, true, none, none, none⟩
  | .other_loan => ⟨true, true, false, false, none, none, none⟩
  | .other_savings => ⟨false, false, true, false, none, none, none⟩

/-! ## Insurance calculator (`calculateLtv`, `getCmhcRate`, `calculateCmhc`) -/

def calculateLtv (purchasePrice downPayment : ℚ) : ℚ :=
  if purchasePrice ≤ 0 then 0 else (purchasePrice - downPayment) / purchasePrice

/-- The bracket scan inside `getCmhcRate`: the rate of the first bracket whose
ceiling is `≥ ltv`, `0` when none matches. -/
def cmhcRateScan (ltv : ℚ) : List (ℚ × ℚ) → ℚ
  | [] => 0
  | (maxLtv, rate) :: rest => if ltv ≤ maxLtv then rate else cmhcRateScan ltv rest

def getCmhcRate (ltv : ℚ) (is30Year : Bool) : ℚ :=
  cmhcRateScan ltv CMHC_RATES + (if is30Year then CMHC_30_YEAR_SURCHARGE else 0)

structure CmhcResult where
  mortgageAmount : ℚ
  ltv : ℚ
  ltvPercent : ℚ
  downPaymentPercent : ℚ
  cmhcRequired : Bool
  premiumRate : ℚ
  premiumRatePercent : ℚ
  cmhcPremium : ℚ
  quebecTax : ℚ
  totalCmhcCost : ℚ
  totalMortgage : ℚ
deriving Repr

def calculateCmhc (purchasePrice downPayment : ℚ) (is30Year : Bool) : CmhcResult :=
  let mortgageAmount := purchasePrice - downPayment
  let ltv := calculateLtv purchasePrice downPayment
  let downPaymentPercent := if 0 < purchasePrice then downPayment / purchasePrice * 100 else 0
  let cmhcRequired : Bool := decide ((80 : ℚ)/100 < ltv)
  let premiumRate := getCmhcRate ltv is30Year
  let cmhcPremium := if cmhcRequired then mortgageAmount * premiumRate else 0
  let quebecTax := cmhcPremium * QUEBEC_TVQ_RATE
  let totalCmhcCost := cmhcPremium + quebecTax
  ⟨mortgageAmount, ltv, ltv * 100, downPaymentPercent, cmhcRequired, premiumRate,
    premiumRate * 100, cmhcPremium, quebecTax, totalCmhcCost, mortgageAmount + totalCmhcCost⟩

/-! ## Amortization (`calculateMonthlyPayment`, `calculatePaymentBreakdown`) -/

structure PaymentResult where
  monthlyPayment : ℚ
  totalPayments : ℚ
  totalInterest : ℚ
deriving Repr, DecidableEq

def calculateMonthlyPayment (principal annualRate : ℚ) (termMonths : ℕ) : PaymentResult :=
  if principal ≤ 0 ∨ termMonths = 0 then ⟨0, 0, 0⟩
  else
    let monthlyRate := annualRate / 100 / 12
    if monthlyRate = 0 then ⟨principal / termMonths, principal, 0⟩
    else
      let rateFactor := (1 + monthlyRate) ^ termMonths
      let monthlyPayment := principal * (monthlyRate * rateFactor) / (rateFactor - 1)
      ⟨monthlyPayment, monthlyPayment * termMonths, monthlyPayment * termMonths - principal⟩

structure PaymentBreakdown where
  interestPortion : ℚ
  principalPortion : ℚ
deriving Repr

def calculatePaymentBreakdown (principal annualRate monthlyPayment : ℚ)
    (currentBalance : Option ℚ) : PaymentBreakdown :=
  let balance := currentBalance.getD principal
  let monthlyRate := annualRate / 100 / 12
  ⟨balance * monthlyRate, monthlyPayment - balance * monthlyRate⟩

/-! ## Affordability (`calculateAffordability`) -/

structure AffordabilityResult where
  ratio : ℚ
  percent : ℚ
  status : String
  statusColor : String
deriving Repr, DecidableEq

def calculateAffordability (totalMonthlyCosts grossMonthlyIncome : ℚ) : AffordabilityResult :=
  if grossMonthlyIncome ≤ 0 then ⟨0, 0, "unknown", "gray"⟩
  else
    let ratio := totalMonthlyCosts / grossMonthlyIncome
    let percent := ratio * 100
    if percent ≤ 30 then ⟨ratio, percent, "Affordable", "green"⟩
    else if percent ≤ 40 then ⟨ratio, percent, "Caution", "yellow"⟩
    else ⟨ratio, percent, "High Risk", "red"⟩

/-! ## Claims about the insurance calculator and affordability classifier -/

/-- **C1.** `calculateCmhc` reports insurance as required exactly when
loan-to-value is strictly above `0.80` (at exactly `0.80` it is not
required); when it is not required the premium and the provincial tax on
it are both `0`, while the LTV and the mortgage amount are still computed
and returned. -/
theorem calculateCmhc_required_iff (purchasePrice downPayment : ℚ) (is30Year : Bool) :
    ((calculateCmhc purchasePrice downPayment is30Year).cmhcRequired = true ↔
      (80 : ℚ)/100 < calculateLtv purchasePrice downPayment) ∧
    ((calculateCmhc purchasePrice downPayment is30Year).cmhcRequired = false →
      (calculateCmhc purchasePrice downPayment is30Year).cmhcPremium = 0 ∧
      (calculateCmhc purchasePrice downPayment is30Year).quebecTax = 0) ∧
    (calculateCmhc purchasePrice downPayment is30Year).ltv =
      calculateLtv purchasePrice downPayment ∧
    (calculateCmhc purchasePrice downPayment is30Year).mortgageAmount =
      purchasePrice - downPayment := by
  refine ⟨?_, ?_, rfl, rfl⟩
  · simp [calculateCmhc]
  · intro h
    simp only [calculateCmhc] at h ⊢
    simp only [decide_eq_false_iff_not] at h
    simp [h, QUEBEC_TVQ_RATE]

/-- **C1 witness:** at price `100`, down payment `20` (LTV exactly `0.80`),
insurance is not required and premium and tax are `0`. -/
theorem calculateCmhc_required_iff_witness :
    (calculateCmhc 100 20 false).cmhcRequired = false ∧
    (calculateCmhc 100 20 false).cmhcPremium = 0 ∧
    (calculateCmhc 100 20 false).quebecTax = 0 := by
  have h := calculateCmhc_required_iff 100 20 false
  have hltv : calculateLtv 100 20 = 80/100 := by norm_num [calculateLtv]
  have hreq : (calculateCmhc 100 20 false).cmhcRequired = false := by
    rcases Bool.eq_false_or_eq_true (calculateCmhc 100 20 false).cmhcRequired with hb | hb
    · exact absurd (hltv ▸ h.1.mp hb) (by norm_num)
    · exact hb
  exact ⟨hreq, h.2.1 hreq⟩

/-- **C7.** For loan-to-value strictly above the highest bracket ceiling
(`0.95`), `getCmhcRate` returns `0` when the 30-year flag is off and
exactly the `0.0020` surcharge when it is on; `calculateCmhc` at such an
LTV still reports insurance as required and computes the premium from that
unclamped rate. -/
theorem getCmhcRate_above_table (ltv : ℚ) (h : (95 : ℚ)/100 < ltv) :
    getCmhcRate ltv false = 0 ∧
    getCmhcRate ltv true = 20/10000 ∧
    (∀ purchasePrice downPayment : ℚ, ∀ is30Year : Bool,
      (95 : ℚ)/100 < calculateLtv purchasePrice downPayment →
      (calculateCmhc purchasePrice downPayment is30Year).cmhcRequired = true ∧
      (calculateCmhc purchasePrice downPayment is30Year).cmhcPremium =
        (purchasePrice - downPayment) * (if is30Year then 20/10000 else 0)) := by
  have hscan : ∀ l : ℚ, (95 : ℚ)/100 < l → cmhcRateScan l CMHC_RATES = 0 := by
    intro l hl
    simp only [CMHC_RATES, cmhcRateScan]
    rw [if_neg (by linarith), if_neg (by linarith), if_neg (by linarith),
      if_neg (by linarith), if_neg (by linarith), if_neg (by linarith)]
  refine ⟨?_, ?_, ?_⟩
  · simp [getCmhcRate, hscan ltv h]
  · simp [getCmhcRate, hscan ltv h, CMHC_30_YEAR_SURCHARGE]
  · intro purchasePrice downPayment is30Year hltv
    constructor
    · simp only [calculateCmhc, decide_eq_true_eq]
      linarith
    · simp only [calculateCmhc, decide_eq_true_eq, getCmhcRate,
        hscan _ hltv, CMHC_30_YEAR_SURCHARGE]
      rw [if_pos (by linarith)]
      cases is30Year <;> norm_num

/-- **C7 witness:** at LTV `1` (price `100`, down payment `0`) the rate is
`0` without the 30-year flag, `0.002` with it, and the premium is `0.2`. -/
theorem getCmhcRate_above_table_witness :
    getCmhcRate 1 false = 0 ∧ getCmhcRate 1 true = 20/10000 ∧
    (calculateCmhc 100 0 true).cmhcRequired = true ∧
    (calculateCmhc 100 0 true).cmhcPremium = (100 - 0) * (20/10000 : ℚ) := by
  have h := getCmhcRate_above_table 1 (by norm_num)
  have hltv : (95 : ℚ)/100 < calculateLtv 100 0 := by norm_num [calculateLtv]
  refine ⟨h.1, h.2.1, (h.2.2 100 0 true hltv).1, ?_⟩
  have := (h.2.2 100 0 true hltv).2
  simpa using this

/-- **C5.** For income `> 0`, `calculateAffordability` classifies the cost
ratio as `Affordable` exactly when it is `≤ 0.30`, `Caution` exactly when
it lies in `(0.30, 0.40]`, and `High Risk` exactly when it is `> 0.40`;
for income `≤ 0` it returns the neutral result. -/
theorem calculateAffordability_classification (totalMonthlyCosts grossMonthlyIncome : ℚ)
    (hc : 0 ≤ totalMonthlyCosts) (hg : 0 < grossMonthlyIncome) :
    (((calculateAffordability totalMonthlyCosts grossMonthlyIncome).status = "Affordable" ↔
        totalMonthlyCosts / grossMonthlyIncome ≤ 30/100) ∧
      ((calculateAffordability totalMonthlyCosts grossMonthlyIncome).status = "Caution" ↔
        (30/100 < totalMonthlyCosts / grossMonthlyIncome ∧
          totalMonthlyCosts / grossMonthlyIncome ≤ 40/100)) ∧
      ((calculateAffordability totalMonthlyCosts grossMonthlyIncome).status = "High Risk" ↔
        40/100 < totalMonthlyCosts / grossMonthlyIncome)) ∧
    (∀ c g : ℚ, g ≤ 0 → calculateAffordability c g = ⟨0, 0, "unknown", "gray"⟩) := by
  constructor
  · have hng : ¬ grossMonthlyIncome ≤ 0 := not_le.mpr hg
    set r := totalMonthlyCosts / grossMonthlyIncome with hr
    have h30 : r * 100 ≤ 30 ↔ r ≤ 30/100 := by constructor <;> intro h <;> linarith
    have h40 : r * 100 ≤ 40 ↔ r ≤ 40/100 := by constructor <;> intro h <;> linarith
    simp only [calculateAffordability, if_neg hng, ← hr]
    split_ifs with h1 h2
    · exact ⟨iff_of_true rfl (by linarith),
        iff_of_false (by simp) (by rintro ⟨hgt, _⟩; linarith),
        iff_of_false (by simp) (by intro hgt; linarith)⟩
    · have h1' : (30 : ℚ) < r * 100 := not_le.mp h1
      exact ⟨iff_of_false (by simp) (by intro hle; linarith),
        iff_of_true rfl ⟨by linarith, by linarith⟩,
        iff_of_false (by simp) (by intro hgt; linarith)⟩
    · have h2' : (40 : ℚ) < r * 100 := not_le.mp h2
      exact ⟨iff_of_false (by simp) (by intro hle; linarith),
        iff_of_false (by simp) (by rintro ⟨_, hle⟩; linarith),
        iff_of_true rfl (by linarith)⟩
  · intro c g hgle
    simp [calculateAffordability, if_pos hgle]

/-- **C5 witness:** at costs `30` and income `100` (ratio exactly `0.30`)
the status is `Affordable`, and at income `0` the neutral result is
returned. -/
theorem calculateAffordability_classification_witness :
    (calculateAffordability 30 100).status = "Affordable" ∧
    calculateAffordability 5 0 = ⟨0, 0, "unknown", "gray"⟩ := by
  have h := calculateAffordability_classification 30 100 (by norm_num) (by norm_num)
  exact ⟨(h.1.1).mpr (by norm_num), h.2 5 0 le_rfl⟩

/-- **C6.** `calculateMonthlyPayment` is total: for `principal ≤ 0` or a
zero term it returns the all-zero result, and for positive principal and
term at annual rate `0` it returns `principal / termMonths` with zero
total interest. -/
theorem calculateMonthlyPayment_edge_cases :
    (∀ (principal annualRate : ℚ) (termMonths : ℕ),
      principal ≤ 0 ∨ termMonths = 0 →
      calculateMonthlyPayment principal annualRate termMonths = ⟨0, 0, 0⟩) ∧
    (∀ (principal : ℚ) (termMonths : ℕ), 0 < principal → 0 < termMonths →
      (calculateMonthlyPayment principal 0 termMonths).monthlyPayment =
        principal / termMonths ∧
      (calculateMonthlyPayment principal 0 termMonths).totalInterest = 0) := by
  constructor
  · intro principal annualRate termMonths h
    simp [calculateMonthlyPayment, if_pos h]
  · intro principal termMonths hp hn
    have hcond : ¬ (principal ≤ 0 ∨ termMonths = 0) := by
      push_neg
      exact ⟨hp, by omega⟩
    simp [calculateMonthlyPayment, if_neg hcond]

/-- **C6 witness:** a zero-principal call returns the all-zero result and a
zero-rate loan of `120` over `12` months costs `10` a month with zero
interest. -/
theorem calculateMonthlyPayment_edge_cases_witness :
    calculateMonthlyPayment 0 5 12 = ⟨0, 0, 0⟩ ∧
    (calculateMonthlyPayment 120 0 12).monthlyPayment = 10 ∧
    (calculateMonthlyPayment 120 0 12).totalInterest = 0 := by
  have h := calculateMonthlyPayment_edge_cases
  refine ⟨h.1 0 5 12 (Or.inl le_rfl), ?_, (h.2 120 12 (by norm_num) (by norm_num)).2⟩
  rw [(h.2 120 12 (by norm_num) (by norm_num)).1]
  norm_num

/-! ## Land-transfer ("welcome") tax (`calculateWelcomeTax`) -/

/-- One row of the welcome-tax breakdown (`{from, to, rate, amount, tax}`). -/
structure TaxEntry where
  from' : ℚ
  to' : ℚ
  rate : ℚ
  amount : ℚ
  tax : ℚ
deriving Repr, DecidableEq

/-- One welcome-tax bracket; `threshold = none` models the `Infinity`
threshold of the last bracket. -/
structure TaxBracket where
  threshold : Option ℚ
  rate : ℚ
deriving Repr, DecidableEq

def QUEBEC_WELCOME_TAX_BRACKETS : List TaxBracket :=
  [⟨some 55200, 5/1000⟩, ⟨some 276200, 10/1000⟩, ⟨some 500000, 15/1000⟩,
   ⟨some 1000000, 20/1000⟩, ⟨none, 25/1000⟩]

/-- The bracket loop of `calculateWelcomeTax`: walks the bracket list
keeping `remaining` and `previousThreshold`, pushes a breakdown entry and
accumulates tax while the unallocated amount is positive, and stops once
`remaining ≤ 0` (the `break`).  An `Infinity` threshold takes all of
`remaining`, so the walk always ends there. -/
def welcomeTaxWalk (purchasePrice : ℚ) :
    List TaxBracket → ℚ → ℚ → List TaxEntry × ℚ
  | [], _, _ => ([], 0)
  | b :: rest, remaining, previousThreshold =>
    match b.threshold with
    | none =>
      if 0 < remaining then
        ([⟨previousThreshold, purchasePrice, b.rate, remaining, remaining * b.rate⟩],
          remaining * b.rate)
      else ([], 0)
    | some t =>
      let bracketMax := t - previousThreshold
      let amountInBracket := min remaining bracketMax
      if 0 < amountInBracket then
        let taxInBracket := amountInBracket * b.rate
        if remaining - amountInBracket ≤ 0 then
          ([⟨previousThreshold, min t purchasePrice, b.rate, amountInBracket, taxInBracket⟩],
            taxInBracket)
        else
          let r := welcomeTaxWalk purchasePrice rest (remaining - amountInBracket) t
          (⟨previousThreshold, min t purchasePrice, b.rate, amountInBracket, taxInBracket⟩ :: r.1,
            taxInBracket + r.2)
      else
        if remaining ≤ 0 then ([], 0)
        else welcomeTaxWalk purchasePrice rest remaining t

structure WelcomeTaxResult where
  breakdown : List TaxEntry
  totalTax : ℚ
deriving Repr, DecidableEq

def calculateWelcomeTax (purchasePrice : ℚ) : WelcomeTaxResult :=
  let r := welcomeTaxWalk purchasePrice QUEBEC_WELCOME_TAX_BRACKETS purchasePrice 0
  ⟨r.1, r.2⟩

/-- The accumulated tax of the walk does not depend on the `purchasePrice`
argument (which only feeds the display-oriented `to` field of entries). -/
theorem welcomeTaxWalk_snd_price (p q : ℚ) :
    ∀ (brs : List TaxBracket) (remaining previousThreshold : ℚ),
    (welcomeTaxWalk p brs remaining previousThreshold).2 =
      (welcomeTaxWalk q brs remaining previousThreshold).2 := by
  intro brs
  induction brs with
  | nil => intro rem prev; rfl
  | cons b rest ih =>
    intro rem prev
    obtain ⟨thr, rate⟩ := b
    cases thr with
    | none =>
      simp only [welcomeTaxWalk]
      split_ifs <;> rfl
    | some t =>
      simp only [welcomeTaxWalk]
      split_ifs <;> simp [ih]

/-- The accumulated tax of the walk is nonnegative when all rates are. -/
theorem welcomeTaxWalk_snd_nonneg (p : ℚ) :
    ∀ (brs : List TaxBracket), (∀ b ∈ brs, 0 ≤ b.rate) →
    ∀ (remaining previousThreshold : ℚ),
    0 ≤ (welcomeTaxWalk p brs remaining previousThreshold).2 := by
  intro brs
  induction brs with
  | nil => intro _ rem prev; exact le_refl 0
  | cons b rest ih =>
    intro hrates rem prev
    obtain ⟨hb, hrest⟩ := List.forall_mem_cons.mp hrates
    obtain ⟨thr, rate⟩ := b
    cases thr with
    | none =>
      simp only [welcomeTaxWalk]
      split_ifs with h1
      · exact mul_nonneg (le_of_lt h1) hb
      · exact le_refl 0
    | some t =>
      simp only [welcomeTaxWalk]
      split_ifs with h1 h2 h3
      · exact mul_nonneg (le_of_lt h1) hb
      · have := ih hrest (rem - min rem (t - prev)) t
        have hm : 0 ≤ min rem (t - prev) * rate := mul_nonneg (le_of_lt h1) hb
        dsimp only
        linarith
      · exact le_refl 0
      · exact ih hrest rem t

/-- The accumulated tax of the walk is monotone in the unallocated amount
when all rates are nonnegative. -/
theorem welcomeTaxWalk_snd_mono (p : ℚ) :
    ∀ (brs : List TaxBracket), (∀ b ∈ brs, 0 ≤ b.rate) →
    ∀ (previousThreshold rem1 rem2 : ℚ), rem1 ≤ rem2 →
    (welcomeTaxWalk p brs rem1 previousThreshold).2 ≤
      (welcomeTaxWalk p brs rem2 previousThreshold).2 := by
  intro brs
  induction brs with
  | nil => intro _ prev rem1 rem2 _; exact le_refl 0
  | cons b rest ih =>
    intro hrates prev rem1 rem2 h12
    obtain ⟨hb, hrest⟩ := List.forall_mem_cons.mp hrates
    obtain ⟨thr, rate⟩ := b
    cases thr with
    | none =>
      simp only [welcomeTaxWalk]
      split_ifs with h1 h2 h2
      · exact mul_le_mul_of_nonneg_right h12 hb
      · linarith
      · exact mul_nonneg (le_of_lt h2) hb
      · exact le_refl 0
    | some t =>
      have hb' : (0 : ℚ) ≤ rate := hb
      have htail : ∀ x : ℚ, 0 ≤ (welcomeTaxWalk p rest x t).2 :=
        fun x => welcomeTaxWalk_snd_nonneg p rest hrest x t
      simp only [welcomeTaxWalk]
      rcases min_choice rem1 (t - prev) with e1 | e1 <;>
        rcases min_choice rem2 (t - prev) with e2 | e2
      · -- both minima are the remaining amounts
        rw [e1, e2]
        split_ifs <;> (try dsimp only) <;>
          first
            | linarith [mul_le_mul_of_nonneg_right h12 hb']
            | linarith [mul_nonneg (show (0:ℚ) ≤ rem2 by linarith) hb',
                htail (rem2 - rem2), htail rem2]
            | linarith [htail rem2]
            | linarith [ih hrest t rem1 rem2 h12]
            | linarith
      · -- min1 = rem1, min2 = bracket width
        have h1t : rem1 ≤ t - prev := by rw [← e1]; exact min_le_right _ _
        have h2t : t - prev ≤ rem2 := by rw [← e2]; exact min_le_left _ _
        rw [e1, e2]
        split_ifs <;> (try dsimp only) <;>
          first
            | linarith [mul_le_mul_of_nonneg_right h1t hb',
                htail (rem2 - (t - prev))]
            | linarith [mul_nonneg (show (0:ℚ) ≤ t - prev by linarith) hb',
                htail (rem2 - (t - prev)), htail rem2]
            | linarith [htail rem2]
            | linarith [ih hrest t rem1 rem2 h12]
            | linarith
      · -- min1 = bracket width, min2 = rem2 (forces all quantities equal)
        have h1t : t - prev ≤ rem1 := by rw [← e1]; exact min_le_left _ _
        have h2t : rem2 ≤ t - prev := by rw [← e2]; exact min_le_right _ _
        rw [e1, e2]
        split_ifs <;> (try dsimp only) <;>
          first
            | linarith [mul_le_mul_of_nonneg_right
                (show t - prev ≤ rem2 by linarith) hb']
            | linarith [mul_nonneg (show (0:ℚ) ≤ rem2 by linarith) hb',
                htail (rem2 - rem2), htail rem2]
            | linarith [htail rem2]
            | linarith [ih hrest t rem1 rem2 h12]
            | linarith
      · -- both minima are the bracket width
        have h1t : t - prev ≤ rem1 := by rw [← e1]; exact min_le_left _ _
        have h2t : t - prev ≤ rem2 := by rw [← e2]; exact min_le_left _ _
        rw [e1, e2]
        split_ifs <;> (try dsimp only) <;>
          first
            | linarith [htail (rem2 - (t - prev))]
            | linarith [ih hrest t (rem1 - (t - prev)) (rem2 - (t - prev))
                (by linarith)]
            | linarith [ih hrest t rem1 rem2 h12]
            | linarith [mul_nonneg (show (0:ℚ) ≤ t - prev by linarith) hb',
                htail (rem2 - (t - prev)), htail rem2]
            | linarith [htail rem2]
            | linarith

/-- The amounts of the breakdown entries sum to the unallocated amount when
the bracket list contains an infinite bracket and the amount is positive. -/
theorem welcomeTaxWalk_sum_amounts (p : ℚ) :
    ∀ (brs : List TaxBracket), (∃ b ∈ brs, b.threshold = none) →
    ∀ (remaining previousThreshold : ℚ), 0 < remaining →
    ((welcomeTaxWalk p brs remaining previousThreshold).1.map TaxEntry.amount).sum =
      remaining := by
  intro brs
  induction brs with
  | nil => intro h; exact absurd h (by simp)
  | cons b rest ih =>
    intro hex rem prev hrem
    obtain ⟨thr, rate⟩ := b
    cases thr with
    | none =>
      simp only [welcomeTaxWalk]
      rw [if_pos hrem]
      simp
    | some t =>
      have hrest : ∃ w ∈ rest, w.threshold = none := by
        obtain ⟨w, hw, hwn⟩ := hex
        rcases List.mem_cons.mp hw with h | h
        · subst h; simp at hwn
        · exact ⟨w, h, hwn⟩
      simp only [welcomeTaxWalk]
      split_ifs with h1 h2 h3
      · have hminle : min rem (t - prev) ≤ rem := min_le_left _ _
        have : min rem (t - prev) = rem := le_antisymm hminle (by linarith)
        simp [this]
      · have := ih hrest (rem - min rem (t - prev)) t (by linarith)
        simp only [List.map_cons, List.sum_cons]
        linarith
      · linarith
      · exact ih hrest rem t hrem

/-- **C4.** For every purchase price `≥ 0` the `amount` entries of the
welcome-tax breakdown sum exactly to the price, and the total tax is
non-decreasing in the price. -/
theorem calculateWelcomeTax_sum_and_mono :
    (∀ price : ℚ, 0 ≤ price →
      ((calculateWelcomeTax price).breakdown.map TaxEntry.amount).sum = price) ∧
    (∀ p1 p2 : ℚ, 0 ≤ p1 → p1 ≤ p2 →
      (calculateWelcomeTax p1).totalTax ≤ (calculateWelcomeTax p2).totalTax) := by
  have hinf : ∃ b ∈ QUEBEC_WELCOME_TAX_BRACKETS, b.threshold = none :=
    ⟨⟨none, 25/1000⟩, by simp [QUEBEC_WELCOME_TAX_BRACKETS]⟩
  have hrates : ∀ b ∈ QUEBEC_WELCOME_TAX_BRACKETS, 0 ≤ b.rate := by
    intro b hb
    simp only [QUEBEC_WELCOME_TAX_BRACKETS, List.mem_cons, List.mem_singleton] at hb
    rcases hb with h | h | h | h | h | h <;> first | (subst h; norm_num) | exact absurd h (by simp)
  constructor
  · intro price hprice
    rcases eq_or_lt_of_le hprice with h0 | h0
    · rw [← h0]
      norm_num [calculateWelcomeTax, welcomeTaxWalk, QUEBEC_WELCOME_TAX_BRACKETS]
    · exact welcomeTaxWalk_sum_amounts price QUEBEC_WELCOME_TAX_BRACKETS hinf price 0 h0
  · intro p1 p2 _ h12
    have hmono := welcomeTaxWalk_snd_mono p1 QUEBEC_WELCOME_TAX_BRACKETS hrates 0 p1 p2 h12
    have hpr := welcomeTaxWalk_snd_price p1 p2 QUEBEC_WELCOME_TAX_BRACKETS p2 0
    calc (calculateWelcomeTax p1).totalTax
        = (welcomeTaxWalk p1 QUEBEC_WELCOME_TAX_BRACKETS p1 0).2 := rfl
      _ ≤ (welcomeTaxWalk p1 QUEBEC_WELCOME_TAX_BRACKETS p2 0).2 := hmono
      _ = (welcomeTaxWalk p2 QUEBEC_WELCOME_TAX_BRACKETS p2 0).2 := hpr
      _ = (calculateWelcomeTax p2).totalTax := rfl

/-- **C4 witness:** at price `300000` the breakdown amounts sum to
`300000`, and the tax at `300000` is at most the tax at `500000`. -/
theorem calculateWelcomeTax_sum_and_mono_witness :
    ((calculateWelcomeTax 300000).breakdown.map TaxEntry.amount).sum = 300000 ∧
    (calculateWelcomeTax 300000).totalTax ≤ (calculateWelcomeTax 500000).totalTax :=
  ⟨calculateWelcomeTax_sum_and_mono.1 300000 (by norm_num),
   calculateWelcomeTax_sum_and_mono.2 300000 500000 (by norm_num) (by norm_num)⟩

/-! ## The month-by-month schedule loop of `updateChart` -/

/-- The per-loan loop in `updateChart`: for each of the scheduled months,
if the balance and the payment are positive, take `interest = balance *
monthlyRate`, `principal = min (payment - interest) balance` (the cap at
the remaining balance), record the principal portion and reduce the
balance; otherwise record `0` and leave the balance alone.  Returns the
recorded principal portions and the final balance. -/
def chartScheduleLoop (monthlyRate monthlyPayment : ℚ) : ℕ → ℚ → List ℚ × ℚ
  | 0, remainingBalance => ([], remainingBalance)
  | n + 1, remainingBalance =>
    if 0 < remainingBalance ∧ 0 < monthlyPayment then
      let interestPortion := remainingBalance * monthlyRate
      let principalPortion := min (monthlyPayment - interestPortion) remainingBalance
      let r := chartScheduleLoop monthlyRate monthlyPayment n
        (remainingBalance - principalPortion)
      (principalPortion :: r.1, r.2)
    else
      let r := chartScheduleLoop monthlyRate monthlyPayment n remainingBalance
      ((0 : ℚ) :: r.1, r.2)

/-- The schedule of one loan in `updateChart`: the loop runs for
`min termMonths 360` months (`maxMonths = 360`) starting from the loan
amount, with the loan's monthly rate `rate / 100 / 12`. -/
def loanPrincipalSchedule (amount rate : ℚ) (termMonths : ℕ) (monthlyPayment : ℚ) :
    List ℚ × ℚ :=
  chartScheduleLoop (rate / 100 / 12) monthlyPayment (min termMonths 360) amount

/-- Telescoping: the recorded principal portions sum to the starting
balance minus the final balance. -/
theorem chartScheduleLoop_sum (monthlyRate monthlyPayment : ℚ) :
    ∀ (n : ℕ) (bal : ℚ),
    (chartScheduleLoop monthlyRate monthlyPayment n bal).1.sum =
      bal - (chartScheduleLoop monthlyRate monthlyPayment n bal).2 := by
  intro n
  induction n with
  | zero => intro bal; simp [chartScheduleLoop]
  | succ n ih =>
    intro bal
    simp only [chartScheduleLoop]
    split_ifs with h
    · dsimp only
      rw [List.sum_cons, ih]
      ring
    · dsimp only
      rw [List.sum_cons, ih]
      ring

/-- If a sequence of balances `g` starts positive, follows the loop update
exactly and reaches `0` at step `n`, the loop drives the balance to `0`. -/
theorem chartScheduleLoop_exact (monthlyRate monthlyPayment : ℚ) (g : ℕ → ℚ) (n : ℕ)
    (hM : 0 < monthlyPayment)
    (hpos : ∀ j, j < n → 0 < g j)
    (hstep : ∀ j, j < n →
      min (monthlyPayment - g j * monthlyRate) (g j) = g j - g (j + 1))
    (hz : g n = 0) :
    ∀ (m k : ℕ), k + m = n →
    (chartScheduleLoop monthlyRate monthlyPayment m (g k)).2 = 0 := by
  intro m
  induction m with
  | zero =>
    intro k hk
    have hkn : k = n := by omega
    simp [chartScheduleLoop, hkn, hz]
  | succ m ih =>
    intro k hk
    have hklt : k < n := by omega
    simp only [chartScheduleLoop]
    rw [if_pos ⟨hpos k hklt, hM⟩]
    dsimp only
    rw [hstep k hklt]
    have hgg : g k - (g k - g (k + 1)) = g (k + 1) := by ring
    rw [hgg]
    exact ih (k + 1) (by omega)

/-- Exact balance sequence of a zero-rate loan: declines linearly. -/
def linearBalances (P : ℚ) (n : ℕ) (k : ℕ) : ℚ := P * ((n : ℚ) - k) / n

/-- Exact balance sequence of a positive-rate loan: the standard closed
form `P * (f^n - f^k) / (f^n - 1)` with `f = 1 + r`. -/
def geomBalances (P r : ℚ) (n : ℕ) (k : ℕ) : ℚ :=
  P * ((1 + r) ^ n - (1 + r) ^ k) / ((1 + r) ^ n - 1)

/-- Zero-rate instantiation: the loop at payment `P / n` zeroes the balance. -/
theorem chartScheduleLoop_zero_rate (P : ℚ) (n : ℕ) (hp : 0 < P) (h1 : 1 ≤ n) :
    (chartScheduleLoop 0 (P / n) n P).2 = 0 := by
  have hnq : (0 : ℚ) < n := by exact_mod_cast (by omega : 0 < n)
  have hg0 : linearBalances P n 0 = P := by
    simp only [linearBalances, Nat.cast_zero, sub_zero]
    rw [mul_div_assoc, div_self hnq.ne', mul_one]
  have h := chartScheduleLoop_exact 0 (P / n) (linearBalances P n) n
    (div_pos hp hnq)
    (by
      intro j hj
      have hjq : (j : ℚ) < n := by exact_mod_cast hj
      simp only [linearBalances]
      exact div_pos (mul_pos hp (by linarith)) hnq)
    (by
      intro j hj
      have hjq : (j : ℚ) + 1 ≤ n := by exact_mod_cast (by omega : j + 1 ≤ n)
      simp only [linearBalances]
      have heq : P / n - P * ((n : ℚ) - j) / n * 0 =
          P * ((n : ℚ) - j) / n - P * ((n : ℚ) - (j + 1 : ℕ)) / n := by
        push_cast
        field_simp
        ring
      have hnn : 0 ≤ P * ((n : ℚ) - (j + 1 : ℕ)) / n := by
        push_cast
        exact div_nonneg (mul_nonneg hp.le (by linarith)) hnq.le
      have hle : P / n - P * ((n : ℚ) - j) / n * 0 ≤ P * ((n : ℚ) - j) / n := by
        linarith [heq, hnn]
      rw [min_eq_left hle]
      exact heq)
    (by simp [linearBalances])
    n 0 (by omega)
  rwa [hg0] at h

/-- Positive-rate instantiation: the loop at the level payment zeroes the
balance. -/
theorem chartScheduleLoop_pos_rate (P r : ℚ) (n : ℕ) (hp : 0 < P) (hr : 0 < r)
    (h1 : 1 ≤ n) :
    (chartScheduleLoop r (P * (r * (1 + r) ^ n) / ((1 + r) ^ n - 1)) n P).2 = 0 := by
  have hf1 : (1 : ℚ) < 1 + r := by linarith
  have hfn : (1 : ℚ) < (1 + r) ^ n := one_lt_pow₀ hf1 (by omega)
  have hD : (0 : ℚ) < (1 + r) ^ n - 1 := by linarith
  have hfpos : ∀ k : ℕ, (0 : ℚ) < (1 + r) ^ k := fun k => pow_pos (by linarith) k
  have hM : 0 < P * (r * (1 + r) ^ n) / ((1 + r) ^ n - 1) :=
    div_pos (mul_pos hp (mul_pos hr (hfpos n))) hD
  have hg0 : geomBalances P r n 0 = P := by
    simp only [geomBalances, pow_zero]
    field_simp
  have h := chartScheduleLoop_exact r (P * (r * (1 + r) ^ n) / ((1 + r) ^ n - 1))
    (geomBalances P r n) n
    hM
    (by
      intro j hj
      have hlt : (1 + r) ^ j < (1 + r) ^ n := pow_lt_pow_right₀ hf1 hj
      simp only [geomBalances]
      exact div_pos (mul_pos hp (by linarith)) hD)
    (by
      intro j hj
      have hle : (1 + r) ^ (j + 1) ≤ (1 + r) ^ n := pow_le_pow_right₀ hf1.le (by omega)
      simp only [geomBalances]
      have heq : P * (r * (1 + r) ^ n) / ((1 + r) ^ n - 1) -
          P * ((1 + r) ^ n - (1 + r) ^ j) / ((1 + r) ^ n - 1) * r =
          P * ((1 + r) ^ n - (1 + r) ^ j) / ((1 + r) ^ n - 1) -
            P * ((1 + r) ^ n - (1 + r) ^ (j + 1)) / ((1 + r) ^ n - 1) := by
        rw [pow_succ]
        field_simp
        ring
      have hnn : 0 ≤ P * ((1 + r) ^ n - (1 + r) ^ (j + 1)) / ((1 + r) ^ n - 1) :=
        div_nonneg (mul_nonneg hp.le (by linarith)) hD.le
      have hle2 : P * (r * (1 + r) ^ n) / ((1 + r) ^ n - 1) -
          P * ((1 + r) ^ n - (1 + r) ^ j) / ((1 + r) ^ n - 1) * r ≤
          P * ((1 + r) ^ n - (1 + r) ^ j) / ((1 + r) ^ n - 1) := by
        linarith [heq, hnn]
      rw [min_eq_left hle2]
      exact heq)
    (by simp [geomBalances])
    n 0 (by omega)
  rwa [hg0] at h

/-- **C3 counterexample:** the claim puts no lower bound on `termMonths`.
At `principal = 100`, rate `0`, `termMonths = 0` the schedule loop runs no
months, the recorded principal portions sum to `0 ≠ 100`, and the final
balance is `100 ≠ 0`. -/
theorem updateChart_schedule_claim_false_at_zero_term :
    ¬ (((loanPrincipalSchedule 100 0 0
          ((calculateMonthlyPayment 100 0 0).monthlyPayment)).1.sum = 100) ∧
       ((loanPrincipalSchedule 100 0 0
          ((calculateMonthlyPayment 100 0 0).monthlyPayment)).2 = 0)) := by
  intro h
  have : (loanPrincipalSchedule 100 0 0
      ((calculateMonthlyPayment 100 0 0).monthlyPayment)).2 = 100 := by
    simp [loanPrincipalSchedule, chartScheduleLoop]
  rw [h.2] at this
  norm_num at this

/-- **C3 (amended: the loan has at least one scheduled month).** For every
loan with positive principal, nonnegative annual rate and
`1 ≤ termMonths ≤ 360`, run with the payment from
`calculateMonthlyPayment`, the per-month principal portions of the
`updateChart` loop sum exactly to the principal and the final remaining
balance is `0`. -/
theorem updateChart_schedule_exhausts (principal annualRate : ℚ) (termMonths : ℕ)
    (hp : 0 < principal) (hr : 0 ≤ annualRate) (h1 : 1 ≤ termMonths)
    (h360 : termMonths ≤ 360) :
    ((loanPrincipalSchedule principal annualRate termMonths
        ((calculateMonthlyPayment principal annualRate termMonths).monthlyPayment)).1.sum =
      principal) ∧
    ((loanPrincipalSchedule principal annualRate termMonths
        ((calculateMonthlyPayment principal annualRate termMonths).monthlyPayment)).2 =
      0) := by
  have hcond : ¬ (principal ≤ 0 ∨ termMonths = 0) := by
    push_neg
    exact ⟨hp, by omega⟩
  have hmin : min termMonths 360 = termMonths := min_eq_left h360
  have hmain : (loanPrincipalSchedule principal annualRate termMonths
      ((calculateMonthlyPayment principal annualRate termMonths).monthlyPayment)).2 = 0 := by
    rcases eq_or_lt_of_le hr with hr0 | hrpos
    · have hMeq : (calculateMonthlyPayment principal annualRate termMonths).monthlyPayment =
          principal / termMonths := by
        simp only [calculateMonthlyPayment, if_neg hcond, ← hr0]
        norm_num
      rw [loanPrincipalSchedule, hmin, hMeq, ← hr0]
      norm_num
      exact chartScheduleLoop_zero_rate principal termMonths hp h1
    · have hrne : annualRate / 100 / 12 ≠ 0 := by positivity
      have hMeq : (calculateMonthlyPayment principal annualRate termMonths).monthlyPayment =
          principal * ((annualRate / 100 / 12) * (1 + annualRate / 100 / 12) ^ termMonths) /
            ((1 + annualRate / 100 / 12) ^ termMonths - 1) := by
        simp only [calculateMonthlyPayment, if_neg hcond, if_neg hrne]
      rw [loanPrincipalSchedule, hmin, hMeq]
      exact chartScheduleLoop_pos_rate principal (annualRate / 100 / 12) termMonths hp
        (by positivity) h1
  refine ⟨?_, hmain⟩
  rw [loanPrincipalSchedule, chartScheduleLoop_sum]
  rw [loanPrincipalSchedule] at hmain
  rw [hmain]
  ring

/-- **C3 witness:** a loan of `1200` at `0%` over `12` months is fully
amortized by the chart loop: portions sum to `1200` and the final balance
is `0`. -/
theorem updateChart_schedule_exhausts_witness :
    ((loanPrincipalSchedule 1200 0 12
        ((calculateMonthlyPayment 1200 0 12).monthlyPayment)).1.sum = 1200) ∧
    ((loanPrincipalSchedule 1200 0 12
        ((calculateMonthlyPayment 1200 0 12).monthlyPayment)).2 = 0) :=
  updateChart_schedule_exhausts 1200 0 12 (by norm_num) le_rfl (by norm_num) (by norm_num)

/-! ## Financing allocation engine (first pass, gap resolution, second pass)

The sparse `financingSources` array is a `List (Option FinancingSource)`
(removal nulls a slot).  A source's `amount` field holds the value the
caller currently has for that slot (the amount input field, or the
auto-filled total mortgage for the auto-fill slot). -/

structure FinancingSource where
  name : String
  sourceType : SourceType
  amount : ℚ
  rate : ℚ
  termMonths : ℕ
  isAutoFillMortgage : Bool
  isAutoCalculated : Bool
deriving Repr, DecidableEq

structure Warning where
  wtype : String
  source : String
  message : String
deriving Repr, DecidableEq

def rrspWarning : Warning :=
  ⟨"warning", "RRSP",
    "Maximum HBP withdrawal is 60000 per person. You may need to reduce this amount."⟩

def celiappWarning : Warning :=
  ⟨"warning", "CELIAPP", "Maximum CELIAPP contribution is 40000. Amount exceeds limit."⟩

structure Pass1Result where
  sources : List (Option FinancingSource)
  totalSavingsForDownPayment : ℚ
  warnings : List Warning
deriving Repr

/-- First pass of `calculate` over the financing sources: resolve each
non-null slot's amount (`0` for the auto-calculated type, the held amount
otherwise), accumulate the savings that count toward the down payment
(types with `countsTowardDownPayment`, not auto-calculated, positive
amount) and emit the RRSP/CELIAPP ceiling warnings. -/
def calcPass1 : List (Option FinancingSource) → Pass1Result
  | [] => ⟨[], 0, []⟩
  | none :: rest =>
    let r := calcPass1 rest
    ⟨none :: r.sources, r.totalSavingsForDownPayment, r.warnings⟩
  | some source :: rest =>
    let typeConfig := FINANCING_TYPES source.sourceType
    let amount := if typeConfig.isAutoCalculated then 0 else source.amount
    let source' := { source with amount := amount }
    let r := calcPass1 rest
    if typeConfig.countsTowardDownPayment ∧ ¬ typeConfig.isAutoCalculated ∧ 0 < amount then
      ⟨some source' :: r.sources, amount + r.totalSavingsForDownPayment,
        ((if source.sourceType = .rrsp ∧ 0 < amount ∧ 60000 < amount
            then [rrspWarning] else []) ++
         (if source.sourceType = .celiapp ∧ 40000 < amount
            then [celiappWarning] else [])) ++ r.warnings⟩
    else
      ⟨some source' :: r.sources, r.totalSavingsForDownPayment, r.warnings⟩

/-- `downPaymentGap = Math.max(0, downPayment - totalSavingsForDownPayment)`. -/
def downPaymentGap (downPayment totalSavingsForDownPayment : ℚ) : ℚ :=
  max 0 (downPayment - totalSavingsForDownPayment)

/-- `updateParentsLoanAmount`: write the gap amount (or `0` when the gap is
not positive) into the first slot that is auto-calculated with type
`parents_loan`; all other slots are untouched. -/
def updateParentsLoanAmount (gapAmount : ℚ) :
    List (Option FinancingSource) → List (Option FinancingSource)
  | [] => []
  | none :: rest => none :: updateParentsLoanAmount gapAmount rest
  | some s :: rest =>
    if s.isAutoCalculated ∧ s.sourceType = .parents_loan then
      some { s with amount := if 0 < gapAmount then gapAmount else 0 } :: rest
    else
      some s :: updateParentsLoanAmount gapAmount rest

/-- First pass followed by gap resolution, as `calculate` performs them. -/
def resolveFinancingSources (downPayment : ℚ) (sources : List (Option FinancingSource)) :
    Pass1Result :=
  let r := calcPass1 sources
  let gap := downPaymentGap downPayment r.totalSavingsForDownPayment
  ⟨updateParentsLoanAmount gap r.sources, r.totalSavingsForDownPayment, r.warnings⟩

/-- The amount of the first auto-calculated `parents_loan` slot, if any. -/
def firstGapSlotAmount : List (Option FinancingSource) → Option ℚ
  | [] => none
  | none :: rest => firstGapSlotAmount rest
  | some s :: rest =>
    if s.isAutoCalculated ∧ s.sourceType = .parents_loan then some s.amount
    else firstGapSlotAmount rest

/-- The sum the first pass actually accumulates: positive amounts of
non-null sources whose type counts toward the down payment and is not
auto-calculated.  Stated independently of the pass (and of any ceiling
check). -/
def downPaymentEligibleSumPos (sources : List (Option FinancingSource)) : ℚ :=
  (sources.filterMap (fun os => os.bind (fun s =>
    if (FINANCING_TYPES s.sourceType).countsTowardDownPayment ∧
        ¬ (FINANCING_TYPES s.sourceType).isAutoCalculated ∧ 0 < s.amount
    then some s.amount else none))).sum

/-- The down-payment sum exactly as the claim words it: amounts of every
non-null source whose type counts toward the down payment, excluding only
the auto-calculated gap slot itself and the auto-fill mortgage slot
(no positivity requirement). -/
def claimedDownPaymentSum (sources : List (Option FinancingSource)) : ℚ :=
  (sources.filterMap (fun os => os.bind (fun s =>
    if (FINANCING_TYPES s.sourceType).countsTowardDownPayment ∧
        ¬ (s.isAutoCalculated ∧ s.sourceType = .parents_loan) ∧
        ¬ s.isAutoFillMortgage
    then some s.amount else none))).sum

/-- The first pass accumulates exactly `downPaymentEligibleSumPos`. -/
theorem calcPass1_totalSavings (sources : List (Option FinancingSource)) :
    (calcPass1 sources).totalSavingsForDownPayment = downPaymentEligibleSumPos sources := by
  induction sources with
  | nil => rfl
  | cons os rest ih =>
    cases os with
    | none =>
      simp only [calcPass1, downPaymentEligibleSumPos, List.filterMap_cons] at ih ⊢
      simpa using ih
    | some s =>
      simp only [calcPass1, downPaymentEligibleSumPos, List.filterMap_cons, Option.bind_some,
        Option.some_bind] at ih ⊢
      by_cases hauto : (FINANCING_TYPES s.sourceType).isAutoCalculated
      · have hc : ¬ ((FINANCING_TYPES s.sourceType).countsTowardDownPayment ∧
            ¬ (FINANCING_TYPES s.sourceType).isAutoCalculated ∧ 0 < (0 : ℚ)) := by
          simp
        rw [if_pos hauto]
        rw [if_neg hc]
        have hc2 : ¬ ((FINANCING_TYPES s.sourceType).countsTowardDownPayment ∧
            ¬ (FINANCING_TYPES s.sourceType).isAutoCalculated ∧ 0 < s.amount) := by
          intro hx
          exact hx.2.1 hauto
        rw [if_neg hc2]
        simpa using ih
      · rw [if_neg hauto]
        by_cases hcount : (FINANCING_TYPES s.sourceType).countsTowardDownPayment ∧
            ¬ (FINANCING_TYPES s.sourceType).isAutoCalculated ∧ 0 < s.amount
        · rw [if_pos hcount, if_pos hcount]
          simp only [List.sum_cons]
          rw [ih]
        · rw [if_neg hcount, if_neg hcount]
          simpa using ih

/-- After `updateParentsLoanAmount`, the first gap slot (when present)
holds the written amount. -/
theorem firstGapSlotAmount_update (gapAmount : ℚ) :
    ∀ (sources : List (Option FinancingSource)) (a : ℚ),
    firstGapSlotAmount (updateParentsLoanAmount gapAmount sources) = some a →
    a = if 0 < gapAmount then gapAmount else 0 := by
  intro sources
  induction sources with
  | nil => intro a h; exact absurd h (by simp [updateParentsLoanAmount, firstGapSlotAmount])
  | cons os rest ih =>
    intro a h
    cases os with
    | none =>
      simp only [updateParentsLoanAmount, firstGapSlotAmount] at h
      exact ih a h
    | some s =>
      by_cases hgap : s.isAutoCalculated ∧ s.sourceType = .parents_loan
      · simp only [updateParentsLoanAmount, if_pos hgap, firstGapSlotAmount] at h
        simpa using h.symm
      · simp only [updateParentsLoanAmount, if_neg hgap, firstGapSlotAmount] at h
        exact ih a h

/-- **C2 counterexample:** with a TFSA slot holding `-5` and the gap slot,
at required down payment `10`, the code's gap amount is `10` (negative
amounts are skipped by the `amount > 0` guard), while the claimed formula
`max(0, downPayment - S)` with `S` the plain sum of down-payment-eligible
amounts gives `max(0, 10 - (-5)) = 15 ≠ 10`. -/
theorem gap_claim_false_on_negative_amounts :
    firstGapSlotAmount (resolveFinancingSources 10
      [some ⟨"TFSA", .tfsa, -5, 0, 0, false, false⟩,
       some ⟨"Parents", .parents_loan, 999, 0, 0, false, true⟩]).sources = some 10 ∧
    claimedDownPaymentSum
      [some ⟨"TFSA", .tfsa, -5, 0, 0, false, false⟩,
       some ⟨"Parents", .parents_loan, 999, 0, 0, false, true⟩] = -5 ∧
    (10 : ℚ) ≠ max 0 (10 - (-5 : ℚ)) := by
  refine ⟨?_, ?_, by norm_num⟩
  · norm_num [resolveFinancingSources, calcPass1, FINANCING_TYPES, downPaymentGap,
      updateParentsLoanAmount, firstGapSlotAmount]
  · norm_num [claimedDownPaymentSum, FINANCING_TYPES, List.filterMap_cons]

/-- **C2 (amended: only positive amounts count).** After the first pass
and gap resolution, the auto-calculated gap slot's amount equals
`max(0, downPayment - S⁺)` where `S⁺` sums the positive amounts of
non-null, down-payment-eligible, non-auto-calculated sources; in
particular it is always `≥ 0`. -/
theorem gap_amount_formula (sources : List (Option FinancingSource)) (downPayment a : ℚ)
    (h : firstGapSlotAmount (resolveFinancingSources downPayment sources).sources = some a) :
    a = max 0 (downPayment - downPaymentEligibleSumPos sources) ∧ 0 ≤ a := by
  simp only [resolveFinancingSources] at h
  have := firstGapSlotAmount_update _ _ a h
  rw [calcPass1_totalSavings] at this
  constructor
  · rw [this]
    unfold downPaymentGap
    split_ifs with hpos
    · rfl
    · have h1 : downPayment - downPaymentEligibleSumPos sources ≤
          max 0 (downPayment - downPaymentEligibleSumPos sources) := le_max_right _ _
      have h2 : max 0 (downPayment - downPaymentEligibleSumPos sources) ≤ 0 :=
        not_lt.mp hpos
      rw [max_eq_left (by linarith)]
  · rw [this]
    split_ifs with hpos
    · exact le_of_lt hpos
    · exact le_rfl

/-- **C2 witness:** a TFSA slot holding `20` and the gap slot, at down
payment `50`: the resolved gap amount is `30 = max(0, 50 - 20) ≥ 0`. -/
theorem gap_amount_formula_witness :
    (30 : ℚ) = max 0 (50 - downPaymentEligibleSumPos
      [some ⟨"TFSA", .tfsa, 20, 0, 0, false, false⟩,
       some ⟨"Parents", .parents_loan, 0, 0, 0, false, true⟩]) ∧ (0 : ℚ) ≤ 30 :=
  gap_amount_formula
    [some ⟨"TFSA", .tfsa, 20, 0, 0, false, false⟩,
     some ⟨"Parents", .parents_loan, 0, 0, 0, false, true⟩] 50 30
    (by norm_num [resolveFinancingSources, calcPass1, FINANCING_TYPES, downPaymentGap,
      updateParentsLoanAmount, firstGapSlotAmount])

/-! ## Second pass of `calculate`: per-source monthly obligations -/

structure LoanPaymentDetail where
  name : String
  sourceType : SourceType
  interest : ℚ
  principal : ℚ
  amount : ℚ
  rate : ℚ
  termMonths : ℕ
  monthlyPayment : ℚ
deriving Repr, DecidableEq

structure Pass2Result where
  totalMonthlyLoanPayment : ℚ
  totalInterestFirstMonth : ℚ
  totalPrincipalFirstMonth : ℚ
  loanPaymentDetails : List LoanPaymentDetail
  rrspMonthlyRepayment : ℚ
deriving Repr

/-- One step of the second pass: loan sources with positive amount and
positive payment are accumulated (`+=`); an RRSP source with positive
amount overwrites (`=`, not `+=`) the household `rrspMonthlyRepayment`
with `amount / 15 / 12`; everything else leaves the accumulator alone. -/
def pass2Step (acc : Pass2Result) (os : Option FinancingSource) : Pass2Result :=
  match os with
  | none => acc
  | some source =>
    let typeConfig := FINANCING_TYPES source.sourceType
    let amount := source.amount
    if typeConfig.isLoan ∧ 0 < amount then
      let payment := calculateMonthlyPayment amount source.rate source.termMonths
      let breakdown := calculatePaymentBreakdown amount source.rate payment.monthlyPayment none
      if 0 < payment.monthlyPayment then
        ⟨acc.totalMonthlyLoanPayment + payment.monthlyPayment,
         acc.totalInterestFirstMonth + breakdown.interestPortion,
         acc.totalPrincipalFirstMonth + breakdown.principalPortion,
         acc.loanPaymentDetails ++
           [⟨source.name, source.sourceType, breakdown.interestPortion,
             breakdown.principalPortion, amount, source.rate, source.termMonths,
             payment.monthlyPayment⟩],
         acc.rrspMonthlyRepayment⟩
      else acc
    else if source.sourceType = .rrsp ∧ 0 < amount then
      { acc with rrspMonthlyRepayment := amount / 15 / 12 }
    else acc

def calcPass2 (sources : List (Option FinancingSource)) : Pass2Result :=
  sources.foldl pass2Step ⟨0, 0, 0, [], 0⟩

/-- The positive amounts of the non-null RRSP sources, in list order. -/
def positiveRrspAmounts (sources : List (Option FinancingSource)) : List ℚ :=
  sources.filterMap (fun os => os.bind (fun s =>
    if s.sourceType = .rrsp ∧ 0 < s.amount then some s.amount else none))

/-- A step on a non-RRSP-positive slot leaves `rrspMonthlyRepayment`
unchanged. -/
theorem pass2Step_rrsp_of_not (acc : Pass2Result) (os : Option FinancingSource)
    (h : (Option.bind os (fun s =>
      if s.sourceType = .rrsp ∧ 0 < s.amount then some s.amount else none)) = none) :
    (pass2Step acc os).rrspMonthlyRepayment = acc.rrspMonthlyRepayment := by
  cases os with
  | none => rfl
  | some s =>
    simp only [Option.some_bind] at h
    by_cases hrr : s.sourceType = .rrsp ∧ 0 < s.amount
    · rw [if_pos hrr] at h
      exact absurd h (by simp)
    · simp only [pass2Step]
      split_ifs with h1 h2
      · rfl
      · rfl
      · rfl

/-- A step on an RRSP slot with positive amount `a` overwrites
`rrspMonthlyRepayment` with `a / 15 / 12`. -/
theorem pass2Step_rrsp_of_pos (acc : Pass2Result) (s : FinancingSource)
    (hrr : s.sourceType = .rrsp) (hpos : 0 < s.amount) :
    (pass2Step acc (some s)).rrspMonthlyRepayment = s.amount / 15 / 12 := by
  have hloan : ¬ ((FINANCING_TYPES s.sourceType).isLoan ∧ 0 < s.amount) := by
    rw [hrr]
    simp [FINANCING_TYPES]
  simp only [pass2Step]
  rw [if_neg hloan, if_pos ⟨hrr, hpos⟩]

/-- The `rrspMonthlyRepayment` after folding is the last positive RRSP
amount divided by `15` and `12` (assignment semantics), or the starting
value when there is none. -/
theorem foldl_pass2Step_rrsp :
    ∀ (sources : List (Option FinancingSource)) (acc : Pass2Result),
    (sources.foldl pass2Step acc).rrspMonthlyRepayment =
      match (positiveRrspAmounts sources).getLast? with
      | some a => a / 15 / 12
      | none => acc.rrspMonthlyRepayment := by
  intro sources
  induction sources with
  | nil => intro acc; rfl
  | cons os rest ih =>
    intro acc
    rw [List.foldl_cons, ih (pass2Step acc os)]
    cases hlast : (positiveRrspAmounts rest).getLast? with
    | some b =>
      have hne : positiveRrspAmounts rest ≠ [] := by
        intro he
        rw [he] at hlast
        simp at hlast
      have hcons : (positiveRrspAmounts (os :: rest)).getLast? = some b := by
        simp only [positiveRrspAmounts, List.filterMap_cons]
        cases hentry : Option.bind os (fun s =>
            if s.sourceType = .rrsp ∧ 0 < s.amount then some s.amount else none) with
        | none => exact hlast
        | some a =>
          obtain ⟨c, l', hl'⟩ : ∃ c l', positiveRrspAmounts rest = c :: l' := by
            cases hpr : positiveRrspAmounts rest with
            | nil => exact absurd hpr hne
            | cons c l' => exact ⟨c, l', rfl⟩
          rw [show List.filterMap (fun os => Option.bind os (fun s =>
              if s.sourceType = .rrsp ∧ 0 < s.amount then some s.amount else none)) rest =
              positiveRrspAmounts rest from rfl, hl', List.getLast?_cons_cons]
          rw [hl'] at hlast
          exact hlast
      rw [hcons]
    | none =>
      have hempty : positiveRrspAmounts rest = [] := List.getLast?_eq_none_iff.mp hlast
      cases hentry : Option.bind os (fun s =>
          if s.sourceType = .rrsp ∧ 0 < s.amount then some s.amount else none) with
      | none =>
        have hcons : (positiveRrspAmounts (os :: rest)).getLast? = none := by
          simp only [positiveRrspAmounts, List.filterMap_cons, hentry]
          exact hlast
        rw [hcons]
        exact pass2Step_rrsp_of_not acc os hentry
      | some a =>
        have hcons : (positiveRrspAmounts (os :: rest)).getLast? = some a := by
          simp only [positiveRrspAmounts, List.filterMap_cons, hentry]
          rw [show List.filterMap (fun os => Option.bind os (fun s =>
              if s.sourceType = .rrsp ∧ 0 < s.amount then some s.amount else none)) rest =
              positiveRrspAmounts rest from rfl, hempty]
          rfl
        rw [hcons]
        cases os with
        | none => exact absurd hentry (by simp)
        | some s =>
          simp only [Option.some_bind] at hentry
          by_cases hrr : s.sourceType = .rrsp ∧ 0 < s.amount
          · rw [if_pos hrr] at hentry
            have ha : s.amount = a := by simpa using hentry
            rw [pass2Step_rrsp_of_pos acc s hrr.1 hrr.2, ha]
          · rw [if_neg hrr] at hentry
            exact absurd hentry (by simp)

/-- Every element of `positiveRrspAmounts` is positive. -/
theorem positiveRrspAmounts_pos (sources : List (Option FinancingSource)) :
    ∀ a ∈ positiveRrspAmounts sources, 0 < a := by
  intro a ha
  simp only [positiveRrspAmounts, List.mem_filterMap] at ha
  obtain ⟨os, _, hos⟩ := ha
  cases os with
  | none => exact absurd hos (by simp)
  | some s =>
    simp only [Option.some_bind] at hos
    by_cases hrr : s.sourceType = .rrsp ∧ 0 < s.amount
    · rw [if_pos hrr] at hos
      have : s.amount = a := by simpa using hos
      exact this ▸ hrr.2
    · rw [if_neg hrr] at hos
      exact absurd hos (by simp)

/-- In a list of positive rationals, the last element is at most the sum,
strictly below it when the list has at least two elements. -/
theorem getLastD_le_sum_of_pos :
    ∀ (l : List ℚ), (∀ a ∈ l, 0 < a) → l ≠ [] → l.getLastD 0 ≤ l.sum := by
  intro l
  induction l with
  | nil => intro _ h; exact absurd rfl h
  | cons x rest ih =>
    intro hpos _
    cases rest with
    | nil => simp
    | cons y l' =>
      have hx : 0 < x := hpos x (by simp)
      have hrest := ih (fun a ha => hpos a (List.mem_cons_of_mem x ha)) (by simp)
      calc (x :: y :: l').getLastD 0 = (y :: l').getLastD 0 := by
            simp [List.getLastD_eq_getLast?, List.getLast?_cons_cons]
        _ ≤ (y :: l').sum := hrest
        _ ≤ x + (y :: l').sum := by linarith
        _ = (x :: y :: l').sum := by simp

/-- Summing a list divided elementwise equals dividing the sum. -/
theorem list_sum_div (l : List ℚ) (c : ℚ) : (l.map (fun a => a / c)).sum = l.sum / c := by
  induction l with
  | nil => simp
  | cons x rest ih => simp [List.map_cons, List.sum_cons, ih, add_div]

/-- **C10.** The household RRSP monthly obligation is assigned, not
accumulated: whenever at least two non-null RRSP sources have positive
amounts, the `rrspMonthlyRepayment` of the second pass equals the last
such amount divided by `15` then `12`, and is strictly less than the sum
of the per-source obligations `amount / 15 / 12`. -/
theorem rrsp_repayment_last_assignment (sources : List (Option FinancingSource))
    (h2 : 2 ≤ (positiveRrspAmounts sources).length) :
    (calcPass2 sources).rrspMonthlyRepayment =
      (positiveRrspAmounts sources).getLastD 0 / 15 / 12 ∧
    (calcPass2 sources).rrspMonthlyRepayment <
      ((positiveRrspAmounts sources).map (fun a => a / 15 / 12)).sum := by
  have hne : positiveRrspAmounts sources ≠ [] := by
    intro he
    rw [he] at h2
    simp at h2
  obtain ⟨b, hb⟩ : ∃ b, (positiveRrspAmounts sources).getLast? = some b := by
    cases hl : (positiveRrspAmounts sources).getLast? with
    | none => exact absurd (List.getLast?_eq_none_iff.mp hl) hne
    | some b => exact ⟨b, rfl⟩
  have hmain : (calcPass2 sources).rrspMonthlyRepayment = b / 15 / 12 := by
    rw [calcPass2, foldl_pass2Step_rrsp, hb]
  have hlastD : (positiveRrspAmounts sources).getLastD 0 = b := by
    rw [List.getLastD_eq_getLast?, hb]
    rfl
  refine ⟨by rw [hmain, hlastD], ?_⟩
  obtain ⟨x, y, l', hxl⟩ : ∃ x y l', positiveRrspAmounts sources = x :: y :: l' := by
    cases h : positiveRrspAmounts sources with
    | nil => exact absurd h hne
    | cons x rest =>
      cases hr : rest with
      | nil =>
        rw [h, hr] at h2
        simp at h2
      | cons y l' => exact ⟨x, y, l', rfl⟩
  have hpos := positiveRrspAmounts_pos sources
  rw [hxl] at hpos hlastD ⊢
  have hx : 0 < x := hpos x (by simp)
  have hlast_le : (y :: l').getLastD 0 ≤ (y :: l').sum :=
    getLastD_le_sum_of_pos (y :: l') (fun a ha => hpos a (List.mem_cons_of_mem x ha))
      (by simp)
  have hxyl : (x :: y :: l').getLastD 0 = (y :: l').getLastD 0 := by
    simp [List.getLastD_eq_getLast?, List.getLast?_cons_cons]
  have hbval : b = (y :: l').getLastD 0 := by rw [← hlastD, hxyl]
  have hble : b ≤ (y :: l').sum := hbval ▸ hlast_le
  have hdiv : ∀ a : ℚ, a / 15 / 12 = a / 180 := by
    intro a
    rw [div_div]
    norm_num
  have hmapeq : ((x :: y :: l').map (fun a => a / 15 / 12)) =
      ((x :: y :: l').map (fun a => a / 180)) :=
    List.map_congr_left (fun a _ => hdiv a)
  have hsum : ((x :: y :: l').map (fun a => a / 180)).sum = (x :: y :: l').sum / 180 :=
    list_sum_div (x :: y :: l') 180
  rw [hmain, hmapeq, hsum, hdiv b]
  have hblt : b < (x :: y :: l').sum := by
    simp only [List.sum_cons] at hble ⊢
    linarith
  exact div_lt_div_of_pos_right hblt (by norm_num)

/-- **C10 witness:** with RRSP slots of `9000` and `18000`, the household
obligation is the last amount's `18000 / 15 / 12 = 100`, strictly below
the `150` total of both obligations. -/
theorem rrsp_repayment_last_assignment_witness :
    (calcPass2 [some ⟨"R1", .rrsp, 9000, 0, 0, false, false⟩,
        some ⟨"R2", .rrsp, 18000, 0, 0, false, false⟩]).rrspMonthlyRepayment =
      (positiveRrspAmounts [some ⟨"R1", .rrsp, 9000, 0, 0, false, false⟩,
        some ⟨"R2", .rrsp, 18000, 0, 0, false, false⟩]).getLastD 0 / 15 / 12 ∧
    (calcPass2 [some ⟨"R1", .rrsp, 9000, 0, 0, false, false⟩,
        some ⟨"R2", .rrsp, 18000, 0, 0, false, false⟩]).rrspMonthlyRepayment <
      ((positiveRrspAmounts [some ⟨"R1", .rrsp, 9000, 0, 0, false, false⟩,
        some ⟨"R2", .rrsp, 18000, 0, 0, false, false⟩]).map (fun a => a / 15 / 12)).sum :=
  rrsp_repayment_last_assignment
    [some ⟨"R1", .rrsp, 9000, 0, 0, false, false⟩,
     some ⟨"R2", .rrsp, 18000, 0, 0, false, false⟩]
    (by norm_num [positiveRrspAmounts, List.filterMap_cons])

/-! ## Per-person affordability shares
(`updateAffordabilityBars` / `updatePerPersonRatios`) -/

structure OwnerData where
  name : String
  income : ℚ
  totalDebts : ℚ
deriving Repr, DecidableEq

/-- `gdsHousingCosts = mortgagePayment + propertyTax + heating` in
`updateAffordabilityBars` (the electricity entry is passed as the heating
proxy). -/
def gdsHousingCosts (mortgagePayment propertyTax heating : ℚ) : ℚ :=
  mortgagePayment + propertyTax + heating

/-- One member's housing-cost share in `updatePerPersonRatios`:
`gdsHousingCosts * (income / totalGrossIncome)`. -/
def housingCostShare (gdsHousing totalGrossIncome income : ℚ) : ℚ :=
  gdsHousing * (income / totalGrossIncome)

def perPersonHousingShares (ownerData : List OwnerData)
    (totalGrossIncome gdsHousing : ℚ) : List ℚ :=
  ownerData.map (fun owner => housingCostShare gdsHousing totalGrossIncome owner.income)

/-- The total gross income as `calculate` accumulates it over the members. -/
def totalGrossIncomeOf (ownerData : List OwnerData) : ℚ :=
  (ownerData.map OwnerData.income).sum

/-- **C8.** For every non-empty member list with positive combined income,
the per-person housing-cost shares (each `total housing cost × income
share`) sum exactly to the total shared housing cost
`loan payments + monthly property tax + utility proxy`. -/
theorem perPersonShares_sum (ownerData : List OwnerData)
    (mortgagePayment propertyTax heating : ℚ)
    (hne : ownerData ≠ [])
    (hpos : 0 < totalGrossIncomeOf ownerData) :
    (perPersonHousingShares ownerData (totalGrossIncomeOf ownerData)
        (gdsHousingCosts mortgagePayment propertyTax heating)).sum =
      gdsHousingCosts mortgagePayment propertyTax heating := by
  set C := gdsHousingCosts mortgagePayment propertyTax heating with hC
  set T := totalGrossIncomeOf ownerData with hT
  have hT0 : T ≠ 0 := ne_of_gt hpos
  have hshape : perPersonHousingShares ownerData T C =
      ownerData.map (fun o => C / T * o.income) := by
    unfold perPersonHousingShares housingCostShare
    exact List.map_congr_left (fun o _ => by
      rw [div_mul_eq_mul_div, mul_div_assoc])
  rw [hshape, List.sum_map_mul_left]
  have hsum : (ownerData.map (fun o => o.income)).sum = T := rfl
  rw [hsum, div_mul_cancel₀ C hT0]

/-- **C8 witness:** two members with incomes `3000` and `1000` share a
`1000` housing cost; the shares sum back to `1000`. -/
theorem perPersonShares_sum_witness :
    (perPersonHousingShares [⟨"A", 3000, 0⟩, ⟨"B", 1000, 0⟩]
        (totalGrossIncomeOf [⟨"A", 3000, 0⟩, ⟨"B", 1000, 0⟩])
        (gdsHousingCosts 800 100 100)).sum =
      gdsHousingCosts 800 100 100 :=
  perPersonShares_sum [⟨"A", 3000, 0⟩, ⟨"B", 1000, 0⟩] 800 100 100
    (by simp)
    (by norm_num [totalGrossIncomeOf])

/-! ## Warnings and their independence from the numeric outputs -/

/-- The ceiling warnings as the spec words them: for each non-null source,
one RRSP warning exactly when its amount exceeds the `60000` withdrawal
ceiling and one CELIAPP warning exactly when its amount exceeds the
`40000` contribution ceiling, in list order. -/
def warningsSpec (sources : List (Option FinancingSource)) : List Warning :=
  sources.foldr (fun os acc =>
    match os with
    | none => acc
    | some s =>
      (if s.sourceType = .rrsp ∧ 60000 < s.amount then [rrspWarning] else []) ++
      (if s.sourceType = .celiapp ∧ 40000 < s.amount then [celiappWarning] else []) ++
      acc) []

/-- The first pass's rewritten source list, stated with no ceiling check:
the auto-calculated type's amount becomes `0`, every other amount is
kept. -/
def pass1SourcesSpec (sources : List (Option FinancingSource)) :
    List (Option FinancingSource) :=
  sources.map (Option.map (fun s =>
    { s with amount :=
        if (FINANCING_TYPES s.sourceType).isAutoCalculated then 0 else s.amount }))

/-- The warnings of the first pass are exactly `warningsSpec`. -/
theorem calcPass1_warnings :
    ∀ sources : List (Option FinancingSource),
    (calcPass1 sources).warnings = warningsSpec sources := by
  intro sources
  induction sources with
  | nil => rfl
  | cons os rest ih =>
    cases os with
    | none => simp [calcPass1, warningsSpec, ih]
    | some s =>
      cases hst : s.sourceType
      case rrsp =>
        by_cases h60 : 60000 < s.amount
        · have h0 : 0 < s.amount := by linarith
          simp [calcPass1, warningsSpec, FINANCING_TYPES, hst, h0, h60, ih]
        · by_cases h0 : 0 < s.amount
          · simp [calcPass1, warningsSpec, FINANCING_TYPES, hst, h0, h60, ih]
          · simp [calcPass1, warningsSpec, FINANCING_TYPES, hst, h0, h60, ih]
      case celiapp =>
        by_cases h40 : 40000 < s.amount
        · have h0 : 0 < s.amount := by linarith
          simp [calcPass1, warningsSpec, FINANCING_TYPES, hst, h0, h40, ih]
        · by_cases h0 : 0 < s.amount
          · simp [calcPass1, warningsSpec, FINANCING_TYPES, hst, h0, h40, ih]
          · simp [calcPass1, warningsSpec, FINANCING_TYPES, hst, h0, h40, ih]
      all_goals
        by_cases h0 : 0 < s.amount <;>
          simp [calcPass1, warningsSpec, FINANCING_TYPES, hst, h0, ih]

/-- The rewritten sources of the first pass are exactly
`pass1SourcesSpec`. -/
theorem calcPass1_sources :
    ∀ sources : List (Option FinancingSource),
    (calcPass1 sources).sources = pass1SourcesSpec sources := by
  intro sources
  induction sources with
  | nil => rfl
  | cons os rest ih =>
    cases os with
    | none => simp [calcPass1, pass1SourcesSpec, ih]
    | some s =>
      by_cases hauto : (FINANCING_TYPES s.sourceType).isAutoCalculated = true
      · simp [calcPass1, pass1SourcesSpec, ih, hauto]
      · simp only [calcPass1, pass1SourcesSpec, List.map_cons, Option.map_some]
        split_ifs <;> simp [ih, pass1SourcesSpec, hauto]

/-- **C9.** A ceiling warning is emitted for a non-null source exactly
when its amount exceeds its type's declared ceiling (`warningsSpec`), and
warnings never influence the numeric outputs: the savings total and the
rewritten source list — from which the gap amount and every payment are
computed — equal formulas (`downPaymentEligibleSumPos`,
`pass1SourcesSpec`) that contain no ceiling check. -/
theorem warnings_iff_ceilings (sources : List (Option FinancingSource)) :
    (calcPass1 sources).warnings = warningsSpec sources ∧
    (calcPass1 sources).totalSavingsForDownPayment = downPaymentEligibleSumPos sources ∧
    (calcPass1 sources).sources = pass1SourcesSpec sources :=
  ⟨calcPass1_warnings sources, calcPass1_totalSavings sources, calcPass1_sources sources⟩

end HomeBudget
